import Mathlib

/-!
Verification of the DoctorHubConcientMall doctor-search service.

The Python sources define a `DoctorSearchApp` class (three near-duplicate
variants: `doctor_api_server.py`, `doctor_search_app.py`, `doctorsearchapp.py`)
that loads doctor records from a CSV source, filters them by case-insensitive
substring search, and formats them for a mobile client, plus Flask routes.

We embed the record model and the operations shallowly.  Python string
primitives (`lower`, `strip`, `in`, `split`, `sorted`) are embedded as
structural recursions over `List Char` so that everything evaluates.
-/

/-- Embedding of Python `str.lower()` restricted to the ASCII case mapping
used by the data in this repository (`Char.toLower` maps A-Z to a-z and
leaves everything else unchanged). -/
def pyLower (s : String) : String := ⟨s.data.map Char.toLower⟩

/-- Embedding of Python `str.strip()`: drop whitespace from both ends. -/
def pyStrip (s : String) : String :=
  ⟨(((s.data.dropWhile Char.isWhitespace).reverse.dropWhile Char.isWhitespace).reverse)⟩

/-- `pyStartsWith needle hay` : `needle` is a prefix of `hay`. -/
def pyStartsWith : List Char → List Char → Bool
  | [], _ => true
  | _ :: _, [] => false
  | a :: as, b :: bs => a == b && pyStartsWith as bs

/-- `pySubstr needle hay` : `needle` occurs as a contiguous substring of
`hay`.  Embedding of Python `needle in hay` on strings. -/
def pySubstr (needle : List Char) : List Char → Bool
  | [] => needle.isEmpty
  | c :: rest => pyStartsWith needle (c :: rest) || pySubstr needle rest

/-- Python `needle in hay` for `String`s. -/
def pyIn (needle hay : String) : Bool := pySubstr needle.data hay.data

/-- Worker for Python `str.split(sep)` with a one-character separator:
`acc` holds the (reversed) characters of the current chunk. -/
def pySplitAux (sep : Char) (acc : List Char) : List Char → List (List Char)
  | [] => [acc.reverse]
  | c :: rest =>
      if c = sep then acc.reverse :: pySplitAux sep [] rest
      else pySplitAux sep (c :: acc) rest

/-- Embedding of Python `s.split(sep)` for a one-character separator. -/
def pySplit (sep : Char) (s : String) : List String :=
  (pySplitAux sep [] s.data).map (fun cs => ⟨cs⟩)

/-- Codepoint-wise lexicographic `≤` on character lists: the order Python
`sorted` uses on strings. -/
def lexLe : List Char → List Char → Bool
  | [], _ => true
  | _ :: _, [] => false
  | a :: as, b :: bs => if a = b then lexLe as bs else decide (a < b)

/-- Lexicographic (ordinal/codepoint) `≤` on strings. -/
def pyLe (a b : String) : Prop := lexLe a.data b.data = true

instance : DecidableRel pyLe := fun a b => by unfold pyLe; infer_instance

/-- One raw CSV row with all six required columns present
(`DoctorRecord` of the spec). -/
structure DoctorRecord where
  doctorName : String
  specialization : String
  clinicLocation : String
  opdDays : String
  timings : String
  contact : String
deriving DecidableEq, Repr

/-- The mobile-facing projection produced by `format_doctor_for_mobile`
(`DoctorView` of the spec). -/
structure DoctorView where
  id : Int
  name : String
  specialization : String
  clinic : String
  days : String
  timings : String
  contact : List String
  available : Bool
deriving DecidableEq, Repr

/-- The six-way match condition of `search_doctors` (doctor_api_server.py
lines 108-113): the already lowered-and-stripped keyword occurs in the
lower-cased value of one of the six fields. -/
def matchesAnyField (kw : String) (doc : DoctorRecord) : Bool :=
  pyIn kw (pyLower doc.doctorName) ||
  pyIn kw (pyLower doc.specialization) ||
  pyIn kw (pyLower doc.clinicLocation) ||
  pyIn kw (pyLower doc.opdDays) ||
  pyIn kw (pyLower doc.timings) ||
  pyIn kw (pyLower doc.contact)

/-- `DoctorSearchApp.search_doctors` (doctor_api_server.py lines 97-115):
lower and strip the keyword; if it is empty return all records, otherwise
keep the records matching any of the six fields. -/
def search_doctors (doctors : List DoctorRecord) (keyword : String) : List DoctorRecord :=
  let kw := pyStrip (pyLower keyword)
  if kw = "" then doctors
  else doctors.filter (matchesAnyField kw)

/-- The per-record suggestion contributions of `autocomplete_doctors`
(doctor_api_server.py lines 84-93): whole field values of the three
scanned fields whose lower-cased value contains the keyword. -/
def suggestionsOf (kw : String) (doc : DoctorRecord) : List String :=
  (if pyIn kw (pyLower doc.doctorName) then [doc.doctorName] else []) ++
  (if pyIn kw (pyLower doc.specialization) then [doc.specialization] else []) ++
  (if pyIn kw (pyLower doc.clinicLocation) then [doc.clinicLocation] else [])

/-- `DoctorSearchApp.autocomplete_doctors` (doctor_api_server.py lines
74-95): lower and strip the keyword; empty keyword gives `[]`; otherwise
collect matching whole field values into a set and return them sorted
(`sorted(list(suggestions))`).  The Python `set` accumulation followed by
`sorted` is embedded as deduplication followed by an insertion sort under
the codepoint-lexicographic order. -/
def autocomplete_doctors (doctors : List DoctorRecord) (keyword : String) : List String :=
  let kw := pyStrip (pyLower keyword)
  if kw = "" then []
  else List.insertionSort pyLe ((doctors.flatMap (suggestionsOf kw)).dedup)

/-- The contact-splitting expression of `format_doctor_for_mobile`
(doctor_api_server.py line 145):
`doctor['Contact'].split(';') if ';' in doctor['Contact'] else [doctor['Contact']]`. -/
def splitContact (contact : String) : List String :=
  if pyIn ";" contact then pySplit ';' contact else [contact]

/-- `DoctorSearchApp.format_doctor_for_mobile` (doctor_api_server.py lines
136-147) on a record with all six fields.  Python's process-seeded string
`hash` is abstracted as the function parameter `h`. -/
def format_doctor_for_mobile (h : String → Int) (doctor : DoctorRecord) : DoctorView :=
  { id := h (doctor.doctorName ++ doctor.specialization)
    name := doctor.doctorName
    specialization := doctor.specialization
    clinic := doctor.clinicLocation
    days := doctor.opdDays
    timings := doctor.timings
    contact := splitContact doctor.contact
    available := pyStrip doctor.opdDays != "" }

/-- A Python `dict` of strings as an association list (first binding wins
on lookup; the loaders never produce duplicate keys). -/
abbrev PyDict := List (String × String)

/-- Python `d[k]`: `some` value or `none` for a `KeyError`. -/
def dictGet (d : PyDict) (k : String) : Option String :=
  (d.find? (fun p => p.1 == k)).map (fun p => p.2)

/-- `format_doctor_for_mobile` exactly as written over the raw row dict
(doctor_api_server.py lines 136-147 and doctorsearchapp.py lines 144-155):
each field is read with `doctor['...']`, so a missing key is a `KeyError`,
embedded as `none`. -/
def format_doctor_for_mobile_dict (h : String → Int) (doctor : PyDict) : Option DoctorView := do
  let name ← dictGet doctor "Doctor Name"
  let spec ← dictGet doctor "Specialization"
  let clinic ← dictGet doctor "Clinic/Location"
  let days ← dictGet doctor "OPD Days"
  let tims ← dictGet doctor "Timings"
  let contact ← dictGet doctor "Contact"
  pure
    { id := h (name ++ spec)
      name := name
      specialization := spec
      clinic := clinic
      days := days
      timings := tims
      contact := splitContact contact
      available := pyStrip days != "" }

/-- A parsed CSV body: the header row and the data rows (csv.DictReader's
input, after line splitting). -/
abbrev Csv := List String × List (List String)

/-- What `csv.DictReader` yields for one data row: field names zipped with
the row's values. -/
def dictReaderRow (fieldnames : List String) (vals : List String) : PyDict :=
  fieldnames.zip vals

/-- `DoctorSearchApp.clean_header` (doctor_search_app.py lines 17-19):
`header.strip()` followed by removal of U+FEFF.  Replacing the one-character
pattern U+FEFF by the empty string removes every occurrence of that
character, embedded as a filter. -/
def clean_header (header : String) : String :=
  ⟨(pyStrip header).data.filter (fun c => c ≠ '\uFEFF')⟩

/-- `load_doctors_from_github` of doctor_api_server.py (lines 36-49) and
doctorsearchapp.py (lines 21-34): the network fetch and CSV parse are the
explicit `Except` argument; any `requests.RequestException` or parse
failure is caught and yields `[]`; on success the rows are returned as
`csv.DictReader` produced them, headers untouched. -/
def api_load_doctors_from_github (fetch : Except String Csv) : List PyDict :=
  match fetch with
  | .error _ => []
  | .ok (headers, rows) => rows.map (dictReaderRow headers)

/-- `load_doctors_from_local` of doctor_api_server.py (lines 51-65) and
doctorsearchapp.py (lines 36-49): `none` is a missing file
(`os.path.exists` fails), `some (.error e)` an open/parse failure; both
yield `[]`. -/
def api_load_doctors_from_local (file : Option (Except String Csv)) : List PyDict :=
  match file with
  | none => []
  | some (.error _) => []
  | some (.ok (headers, rows)) => rows.map (dictReaderRow headers)

/-- `load_doctors_from_github` of doctor_search_app.py (lines 21-38):
on success the reader's fieldnames are first cleaned
(`reader.fieldnames = [self.clean_header(h) for h in reader.fieldnames]`),
then every row dict is rebuilt as
`{self.clean_header(k): v.strip() for k, v in row.items()}`;
any exception yields `[]`. -/
def sa_load_doctors_from_github (fetch : Except String Csv) : List PyDict :=
  match fetch with
  | .error _ => []
  | .ok (headers, rows) =>
      let fieldnames := headers.map clean_header
      rows.map (fun vals =>
        (dictReaderRow fieldnames vals).map (fun kv => (clean_header kv.1, pyStrip kv.2)))

/-- `load_doctors_from_local` of doctor_search_app.py (lines 40-53): same
row cleaning as its GitHub loader; any exception (including a missing
file, which `open` raises) yields `[]`. -/
def sa_load_doctors_from_local (file : Option (Except String Csv)) : List PyDict :=
  match file with
  | none => []
  | some (.error _) => []
  | some (.ok (headers, rows)) =>
      let fieldnames := headers.map clean_header
      rows.map (fun vals =>
        (dictReaderRow fieldnames vals).map (fun kv => (clean_header kv.1, pyStrip kv.2)))

/-- Response of the `/api/search` route, with the HTTP status made
explicit and the timestamp passed in (the handler formats the current
time; it is data, not logic). -/
structure SearchResponse where
  status : Nat
  success : Bool
  error : Option String
  query : Option String
  results : List DoctorView
  count : Nat
  timestamp : String
deriving DecidableEq, Repr

/-- The `/api/search` handler (doctor_api_server.py lines 284-313):
`keyword = request.args.get('q', '').strip()`; empty keyword gives a 400
envelope with `success: false` and an error message, built before any
record is loaded or searched; otherwise the loaded records are searched,
formatted, and returned in a 200 envelope. -/
def api_search_route (h : String → Int) (ts : String) (q : Option String)
    (doctors : List DoctorRecord) : SearchResponse :=
  let keyword := pyStrip (q.getD "")
  if keyword = "" then
    { status := 400, success := false, error := some "Search keyword q is required"
      query := none, results := [], count := 0, timestamp := ts }
  else
    let results := search_doctors doctors keyword
    let formatted := results.map (format_doctor_for_mobile h)
    { status := 200, success := true, error := none
      query := some keyword, results := formatted, count := formatted.length, timestamp := ts }

/-- Response of the `/api/doctor/<int:doctor_id>` route. -/
structure DoctorResponse where
  status : Nat
  success : Bool
  doctor : Option DoctorView
  error : Option String
deriving DecidableEq, Repr

/-- The `/api/doctor/<int:doctor_id>` handler (doctor_api_server.py lines
402-430): format every loaded record, take the first formatted doctor
whose `id` equals the path parameter
(`next((d for d in formatted_doctors if d['id'] == doctor_id), None)`),
404 when there is none. -/
def api_get_doctor_route (h : String → Int) (doctors : List DoctorRecord)
    (doctor_id : Int) : DoctorResponse :=
  let formatted := doctors.map (format_doctor_for_mobile h)
  match formatted.find? (fun d => d.id == doctor_id) with
  | none => { status := 404, success := false, doctor := none, error := some "Doctor not found" }
  | some d => { status := 200, success := true, doctor := some d, error := none }

/-- Joining contact chunks back with the `;` separator, at the character
level.  Used to characterize what the contact split produces. -/
def cJoin (sep : Char) : List (List Char) → List Char
  | [] => []
  | [x] => x
  | x :: xs => x ++ sep :: cJoin sep xs

/-- Joining a contact sequence back with the `;` separator.  Spec-side
characterization device: a sequence whose `joinSemi` is the raw contact
string and whose elements are `;`-free is exactly the verbatim splitting
of that string on `;`. -/
def joinSemi : List String → String
  | [] => ""
  | [x] => x
  | x :: xs => x ++ ";" ++ joinSemi xs

/-! ## Helper lemmas -/

lemma count_filter_eq {α : Type} [DecidableEq α] (p : α → Bool) (l : List α) (a : α) :
    (l.filter p).count a = if p a = true then l.count a else 0 := by
  by_cases h : p a = true
  · rw [if_pos h, List.count_filter h]
  · rw [if_neg h, List.count_eq_zero]
    simp [List.mem_filter, h]

lemma getLast?_cons_of_ne_nil {α : Type} (a : α) {l : List α} (h : l ≠ []) :
    (a :: l).getLast? = l.getLast? := by
  cases l with
  | nil => exact absurd rfl h
  | cons b t => exact List.getLast?_cons_cons

lemma pySplitAux_cons (sep : Char) (acc : List Char) (c : Char) (rest : List Char) :
    pySplitAux sep acc (c :: rest) =
      if c = sep then acc.reverse :: pySplitAux sep [] rest
      else pySplitAux sep (c :: acc) rest := rfl

lemma pySplitAux_ne_nil (sep : Char) (l acc : List Char) : pySplitAux sep acc l ≠ [] := by
  induction l generalizing acc with
  | nil => simp [pySplitAux]
  | cons c rest ih =>
    simp only [pySplitAux]
    split
    · simp
    · exact ih _

lemma pySplitAux_getLast_of_sep (sep : Char) (l : List Char)
    (h : l.getLast? = some sep) :
    ∀ acc, (pySplitAux sep acc l).getLast? = some [] := by
  induction l with
  | nil => simp at h
  | cons c rest ih =>
    intro acc
    cases rest with
    | nil =>
      simp [List.getLast?] at h
      simp [pySplitAux, h, List.getLast?]
    | cons c2 rest2 =>
      rw [List.getLast?_cons_cons] at h
      rw [pySplitAux_cons]
      split
      · rw [getLast?_cons_of_ne_nil _ (pySplitAux_ne_nil sep (c2 :: rest2) [])]
        exact ih h []
      · exact ih h _

lemma pySubstr_singleton_of_mem {c : Char} {l : List Char} (h : c ∈ l) :
    pySubstr [c] l = true := by
  induction l with
  | nil => cases h
  | cons a rest ih =>
    rcases List.mem_cons.mp h with h1 | h1
    · subst h1
      simp [pySubstr, pyStartsWith]
    · simp [pySubstr, ih h1]

lemma not_mem_of_pySubstr_singleton_false {c : Char} {l : List Char}
    (h : pySubstr [c] l = false) : c ∉ l := by
  intro hm
  rw [pySubstr_singleton_of_mem hm] at h
  cases h

lemma cJoin_cons (sep : Char) (x : List Char) {xs : List (List Char)} (h : xs ≠ []) :
    cJoin sep (x :: xs) = x ++ sep :: cJoin sep xs := by
  cases xs with
  | nil => exact absurd rfl h
  | cons y ys => rfl

lemma joinSemi_cons (x : String) {xs : List String} (h : xs ≠ []) :
    joinSemi (x :: xs) = x ++ ";" ++ joinSemi xs := by
  cases xs with
  | nil => exact absurd rfl h
  | cons y ys => rfl

lemma cJoin_pySplitAux (l acc : List Char) :
    cJoin ';' (pySplitAux ';' acc l) = acc.reverse ++ l := by
  induction l generalizing acc with
  | nil => simp [pySplitAux, cJoin]
  | cons c rest ih =>
    simp only [pySplitAux]
    split
    · rename_i hceq
      rw [cJoin_cons ';' _ (pySplitAux_ne_nil ';' rest []), ih []]
      simp [hceq]
    · rw [ih (c :: acc)]
      simp

lemma not_mem_pySplitAux {sep : Char} (l : List Char) :
    ∀ acc, sep ∉ acc → ∀ p ∈ pySplitAux sep acc l, sep ∉ p := by
  induction l with
  | nil =>
    intro acc hacc p hp
    simp [pySplitAux] at hp
    subst hp
    simpa [List.mem_reverse] using hacc
  | cons c rest ih =>
    intro acc hacc p hp
    simp only [pySplitAux] at hp
    split at hp
    · rcases List.mem_cons.mp hp with h1 | h1
      · subst h1
        simpa [List.mem_reverse] using hacc
      · exact ih [] (by simp) p h1
    · rename_i hcne
      refine ih (c :: acc) ?_ p hp
      intro hm
      rcases List.mem_cons.mp hm with h1 | h1
      · exact hcne h1.symm
      · exact hacc h1

lemma joinSemi_map_mk (parts : List (List Char)) :
    joinSemi (parts.map (fun cs => (⟨cs⟩ : String))) = ⟨cJoin ';' parts⟩ := by
  induction parts with
  | nil => rfl
  | cons x xs ih =>
    cases xs with
    | nil => rfl
    | cons y ys =>
      rw [List.map_cons, joinSemi_cons _ (by simp), ih,
        cJoin_cons ';' x (by simp)]
      apply String.ext
      simp

lemma lexLe_total : ∀ a b : List Char, lexLe a b = true ∨ lexLe b a = true := by
  intro a
  induction a with
  | nil => intro b; exact Or.inl rfl
  | cons x xs ih =>
    intro b
    cases b with
    | nil => exact Or.inr rfl
    | cons y ys =>
      by_cases hxy : x = y
      · subst hxy
        rcases ih ys with h | h
        · left
          simp [lexLe, h]
        · right
          simp [lexLe, h]
      · rcases lt_or_gt_of_ne hxy with h | h
        · left
          simp [lexLe, if_neg hxy, decide_eq_true h]
        · right
          simp [lexLe, if_neg (Ne.symm hxy), decide_eq_true h]

lemma lexLe_trans : ∀ a b c : List Char,
    lexLe a b = true → lexLe b c = true → lexLe a c = true := by
  intro a
  induction a with
  | nil => intro b c _ _; rfl
  | cons x xs ih =>
    intro b c h1 h2
    cases b with
    | nil => simp [lexLe] at h1
    | cons y ys =>
      cases c with
      | nil => simp [lexLe] at h2
      | cons z zs =>
        simp only [lexLe] at h1 h2 ⊢
        by_cases hxy : x = y
        · subst hxy
          rw [if_pos rfl] at h1
          by_cases hyz : x = z
          · subst hyz
            rw [if_pos rfl] at h2 ⊢
            exact ih ys zs h1 h2
          · rw [if_neg hyz] at h2 ⊢
            exact h2
        · rw [if_neg hxy] at h1
          by_cases hyz : y = z
          · subst hyz
            rw [if_neg hxy]
            exact h1
          · rw [if_neg hyz] at h2
            have hx : x < y := of_decide_eq_true h1
            have hy : y < z := of_decide_eq_true h2
            have hxz : x < z := lt_trans hx hy
            rw [if_neg (ne_of_lt hxz)]
            exact decide_eq_true hxz

instance : IsTotal String pyLe := ⟨fun a b => lexLe_total a.data b.data⟩

instance : IsTrans String pyLe := ⟨fun a b c => lexLe_trans a.data b.data c.data⟩

lemma mem_suggestionsOf {kw s : String} {d : DoctorRecord} :
    s ∈ suggestionsOf kw d ↔
      (pyIn kw (pyLower d.doctorName) = true ∧ s = d.doctorName) ∨
      (pyIn kw (pyLower d.specialization) = true ∧ s = d.specialization) ∨
      (pyIn kw (pyLower d.clinicLocation) = true ∧ s = d.clinicLocation) := by
  unfold suggestionsOf
  split_ifs <;> simp_all

/-! ## Claim theorems -/

/-- C1: for every record set and every keyword that is non-empty after
lowering and trimming, `search_doctors` returns a subsequence of its input
(order preserved, no deduplication: multiplicities are those of the input)
containing exactly the records in which the lowered, trimmed keyword is a
substring of the lower-cased value of at least one of the six fields. -/
theorem search_doctors_correct (R : List DoctorRecord) (k : String)
    (hk : pyStrip (pyLower k) ≠ "") :
    (search_doctors R k).Sublist R ∧
    (∀ r, r ∈ search_doctors R k ↔
      r ∈ R ∧ matchesAnyField (pyStrip (pyLower k)) r = true) ∧
    (∀ r, (search_doctors R k).count r =
      if matchesAnyField (pyStrip (pyLower k)) r = true then R.count r else 0) := by
  have e : search_doctors R k = R.filter (matchesAnyField (pyStrip (pyLower k))) := by
    simp [search_doctors, hk]
  rw [e]
  exact ⟨R.filter_sublist, fun r => List.mem_filter, fun r => count_filter_eq _ _ _⟩

/-- Witness for C1 at keyword `"  Card "` over a one-record set. -/
theorem search_doctors_correct_witness :
    pyStrip (pyLower "  Card ") ≠ "" ∧
    ((search_doctors [⟨"Dr. B", "Cardiology", "X", "Mon", "9-5", "111"⟩] "  Card ").Sublist
        [⟨"Dr. B", "Cardiology", "X", "Mon", "9-5", "111"⟩] ∧
      (∀ r, r ∈ search_doctors [⟨"Dr. B", "Cardiology", "X", "Mon", "9-5", "111"⟩] "  Card " ↔
        r ∈ [⟨"Dr. B", "Cardiology", "X", "Mon", "9-5", "111"⟩] ∧
          matchesAnyField (pyStrip (pyLower "  Card ")) r = true) ∧
      (∀ r, (search_doctors [⟨"Dr. B", "Cardiology", "X", "Mon", "9-5", "111"⟩] "  Card ").count r =
        if matchesAnyField (pyStrip (pyLower "  Card ")) r = true then
          ([⟨"Dr. B", "Cardiology", "X", "Mon", "9-5", "111"⟩] : List DoctorRecord).count r
        else 0)) :=
  ⟨by decide, search_doctors_correct _ _ (by decide)⟩

/-- C7: a keyword that is empty after lowering and trimming (the empty
string and whitespace-only strings included) makes `search_doctors` the
identity on the record set. -/
theorem search_doctors_empty_keyword_identity (R : List DoctorRecord) (k : String)
    (hk : pyStrip (pyLower k) = "") :
    search_doctors R k = R := by
  simp [search_doctors, hk]

/-- Witness for C7 at the whitespace-only keyword `"   "`. -/
theorem search_doctors_empty_keyword_identity_witness :
    pyStrip (pyLower "   ") = "" ∧
    search_doctors [⟨"Dr. B", "Cardiology", "X", "Mon", "9-5", "111"⟩] "   " =
      [⟨"Dr. B", "Cardiology", "X", "Mon", "9-5", "111"⟩] :=
  ⟨by decide, search_doctors_empty_keyword_identity _ _ (by decide)⟩

/-- C4: `format_doctor_for_mobile` as written reads every field with
`doctor['...']`, so a record missing a required key raises `KeyError`
(`none` in the embedding) instead of defaulting the field to the empty
string; on a complete row it agrees with the record-level formatter. -/
theorem format_doctor_missing_key_raises :
    format_doctor_for_mobile_dict (fun _ => 0) [("Doctor Name", "Dr. A")] = none ∧
    format_doctor_for_mobile_dict (fun _ => 0)
        [("Doctor Name", "Dr. A"), ("Specialization", "Cardiology"),
         ("Clinic/Location", "X"), ("OPD Days", "Mon"), ("Timings", "9-5"),
         ("Contact", "111;222")] =
      some (format_doctor_for_mobile (fun _ => 0)
        ⟨"Dr. A", "Cardiology", "X", "Mon", "9-5", "111;222"⟩) := by
  decide

/-- C5: every loader returns the empty list on any retrieval or parse
failure: a network or CSV error for the GitHub loaders, and a missing
file or an open/parse error for the local loaders. -/
theorem load_failure_returns_empty :
    (∀ e, api_load_doctors_from_github (.error e) = []) ∧
    api_load_doctors_from_local none = [] ∧
    (∀ e, api_load_doctors_from_local (some (.error e)) = []) ∧
    (∀ e, sa_load_doctors_from_github (.error e) = []) ∧
    sa_load_doctors_from_local none = [] ∧
    (∀ e, sa_load_doctors_from_local (some (.error e)) = []) :=
  ⟨fun _ => rfl, rfl, fun _ => rfl, fun _ => rfl, rfl, fun _ => rfl⟩

/-- C2 counterexample: on the raw contact string `"111; 222"` the
formatter yields the untrimmed chunks `["111", " 222"]`, not the trimmed
sequence `["111", "222"]` the claim describes. -/
theorem contact_split_trimming_counterexample :
    (format_doctor_for_mobile (fun _ => 0)
        ⟨"Dr. A", "Cardiology", "X", "Mon", "9-5", "111; 222"⟩).contact =
      ["111", " 222"] ∧
    (["111", " 222"] : List String) ≠ ["111", "222"] := by
  decide

/-- C3: loading a CSV whose header row carries a byte-order mark on
`Doctor Name` and padding on `Specialization`.  The doctor_search_app.py
loader normalizes the headers, so both keys are addressable afterwards;
the doctor_api_server.py loader keeps the raw headers, so the lookup of
`Doctor Name` (and of `Specialization`) fails on the very same input. -/
theorem header_normalization_divergence :
    (sa_load_doctors_from_github (.ok
        (["﻿Doctor Name", " Specialization ", "Clinic/Location",
          "OPD Days", "Timings", "Contact"],
         [["Dr. A", "Cardiology", "X", "Mon,Wed", "9-5", "111;222"]]))).map
      (fun d => [dictGet d "Doctor Name", dictGet d "Specialization",
        dictGet d "Clinic/Location", dictGet d "OPD Days",
        dictGet d "Timings", dictGet d "Contact"]) =
      [[some "Dr. A", some "Cardiology", some "X", some "Mon,Wed",
        some "9-5", some "111;222"]] ∧
    (api_load_doctors_from_github (.ok
        (["﻿Doctor Name", " Specialization ", "Clinic/Location",
          "OPD Days", "Timings", "Contact"],
         [["Dr. A", "Cardiology", "X", "Mon,Wed", "9-5", "111;222"]]))).map
      (fun d => [dictGet d "Doctor Name", dictGet d "Specialization"]) =
      [[none, none]] :=
  ⟨by decide, by decide⟩

/-- C2 amended: for every raw contact string containing `;` the formatter
produces exactly the verbatim (untrimmed) splitting on `;`: joining the
produced chunks back with `;` restores the raw string, no chunk contains
`;`, and a `;`-free raw string yields the one-element sequence holding it
unchanged. -/
theorem contact_split_verbatim (c : String) :
    joinSemi (splitContact c) = c ∧
    (∀ p ∈ splitContact c, ';' ∉ p.data) ∧
    (pyIn ";" c = false → splitContact c = [c]) := by
  refine ⟨?_, ?_, ?_⟩
  · unfold splitContact
    split
    · show joinSemi (pySplit ';' c) = c
      unfold pySplit
      rw [joinSemi_map_mk, cJoin_pySplitAux]
      rfl
    · rfl
  · intro p hp
    unfold splitContact at hp
    split at hp
    · unfold pySplit at hp
      rcases List.mem_map.mp hp with ⟨q, hq, rfl⟩
      exact not_mem_pySplitAux c.data [] (by simp) q hq
    · rename_i hnot
      simp only [List.mem_singleton] at hp
      subst hp
      have hf : pySubstr [';'] p.data = false := by
        revert hnot
        cases hx : pyIn ";" p
        · intro _
          exact hx
        · intro hnot
          exact absurd rfl hnot
      exact not_mem_of_pySubstr_singleton_false hf
  · intro hf
    unfold splitContact
    rw [if_neg (by simp [hf])]

/-- Witness for the amended C2 on `"111; 222"` (a record whose second
chunk keeps its leading space) and on the `;`-free string `"111"`. -/
theorem contact_split_verbatim_witness :
    joinSemi (splitContact "111; 222") = "111; 222" ∧
    ';' ∉ (" 222" : String).data ∧
    pyIn ";" "111" = false ∧
    splitContact "111" = ["111"] :=
  ⟨(contact_split_verbatim "111; 222").1,
    (contact_split_verbatim "111; 222").2.1 " 222" (by decide),
    by decide,
    (contact_split_verbatim "111").2.2 (by decide)⟩

/-- C10: the formatted contact sequence always has at least one element;
an empty raw contact string yields `[""]`, and a raw contact string
ending in `;` yields a final element that is the empty string. -/
theorem contact_list_never_empty :
    (∀ (h : String → Int) (r : DoctorRecord),
      (format_doctor_for_mobile h r).contact ≠ []) ∧
    splitContact "" = [""] ∧
    (∀ c : String, c.data.getLast? = some ';' →
      (splitContact c).getLast? = some "") := by
  refine ⟨?_, by decide, ?_⟩
  · intro h r
    show splitContact r.contact ≠ []
    unfold splitContact
    split
    · show pySplit ';' r.contact ≠ []
      unfold pySplit
      simp only [ne_eq, List.map_eq_nil_iff]
      exact pySplitAux_ne_nil ';' r.contact.data []
    · simp
  · intro c hc
    have hmem : ';' ∈ c.data := List.mem_of_mem_getLast? (Option.mem_def.mpr hc)
    have hin : pyIn ";" c = true := pySubstr_singleton_of_mem hmem
    unfold splitContact
    rw [if_pos hin]
    show (pySplit ';' c).getLast? = some ""
    unfold pySplit
    rw [List.getLast?_map, pySplitAux_getLast_of_sep ';' c.data hc []]
    rfl

/-- Witness for C10 on the contact string `"x;"`. -/
theorem contact_list_never_empty_witness :
    ("x;" : String).data.getLast? = some ';' ∧
    (splitContact "x;").getLast? = some "" :=
  ⟨by decide, contact_list_never_empty.2.2 "x;" (by decide)⟩

/-- C6: autocomplete returns `[]` when the keyword is empty after
lowering and trimming; otherwise it returns, without duplicates and in
ascending codepoint-lexicographic order, exactly the whole values of the
name, specialization and clinic/location fields whose lower-cased value
contains the keyword, over all records. -/
theorem autocomplete_doctors_correct (R : List DoctorRecord) (k : String) :
    (pyStrip (pyLower k) = "" → autocomplete_doctors R k = []) ∧
    (pyStrip (pyLower k) ≠ "" →
      (autocomplete_doctors R k).Nodup ∧
      List.Sorted pyLe (autocomplete_doctors R k) ∧
      (∀ s, s ∈ autocomplete_doctors R k ↔
        ∃ d ∈ R,
          (pyIn (pyStrip (pyLower k)) (pyLower d.doctorName) = true ∧ s = d.doctorName) ∨
          (pyIn (pyStrip (pyLower k)) (pyLower d.specialization) = true ∧
            s = d.specialization) ∨
          (pyIn (pyStrip (pyLower k)) (pyLower d.clinicLocation) = true ∧
            s = d.clinicLocation))) := by
  constructor
  · intro hk
    simp [autocomplete_doctors, hk]
  · intro hk
    have e : autocomplete_doctors R k =
        List.insertionSort pyLe ((R.flatMap (suggestionsOf (pyStrip (pyLower k)))).dedup) := by
      simp [autocomplete_doctors, hk]
    refine ⟨?_, ?_, ?_⟩
    · rw [e]
      exact (List.perm_insertionSort pyLe _).symm.nodup (List.nodup_dedup _)
    · rw [e]
      exact List.sorted_insertionSort pyLe _
    · intro s
      rw [e, (List.perm_insertionSort pyLe _).mem_iff, List.mem_dedup, List.mem_flatMap]
      simp only [mem_suggestionsOf]

/-- Witness for C6 at keyword `"dr"` over a two-record set whose matching
names come back sorted and deduplicated. -/
theorem autocomplete_doctors_correct_witness :
    pyStrip (pyLower "dr") ≠ "" ∧
    ((autocomplete_doctors [⟨"Dr. B", "Cardiology", "X", "Mon", "9-5", "111"⟩,
        ⟨"Dr. A", "Cardiology", "X", "Mon", "9-5", "111"⟩] "dr").Nodup ∧
      List.Sorted pyLe (autocomplete_doctors [⟨"Dr. B", "Cardiology", "X", "Mon", "9-5", "111"⟩,
        ⟨"Dr. A", "Cardiology", "X", "Mon", "9-5", "111"⟩] "dr") ∧
      (∀ s, s ∈ autocomplete_doctors [⟨"Dr. B", "Cardiology", "X", "Mon", "9-5", "111"⟩,
          ⟨"Dr. A", "Cardiology", "X", "Mon", "9-5", "111"⟩] "dr" ↔
        ∃ d ∈ ([⟨"Dr. B", "Cardiology", "X", "Mon", "9-5", "111"⟩,
            ⟨"Dr. A", "Cardiology", "X", "Mon", "9-5", "111"⟩] : List DoctorRecord),
          (pyIn (pyStrip (pyLower "dr")) (pyLower d.doctorName) = true ∧ s = d.doctorName) ∨
          (pyIn (pyStrip (pyLower "dr")) (pyLower d.specialization) = true ∧
            s = d.specialization) ∨
          (pyIn (pyStrip (pyLower "dr")) (pyLower d.clinicLocation) = true ∧
            s = d.clinicLocation))) :=
  ⟨by decide, (autocomplete_doctors_correct _ _).2 (by decide)⟩

/-- C8: the `/api/search` route answers 400 with `success: false` and an
error message whenever `q` is absent or empty after trimming — and the
response is then independent of the record set, which is neither loaded
nor searched — and answers 200 with the query, the formatted results,
their count and the timestamp otherwise. -/
theorem api_search_route_validation (h : String → Int) (ts : String)
    (q : Option String) (doctors : List DoctorRecord) :
    (pyStrip (q.getD "") = "" →
      api_search_route h ts q doctors =
        { status := 400, success := false, error := some "Search keyword q is required",
          query := none, results := [], count := 0, timestamp := ts } ∧
      (∀ doctors2, api_search_route h ts q doctors = api_search_route h ts q doctors2)) ∧
    (pyStrip (q.getD "") ≠ "" →
      api_search_route h ts q doctors =
        { status := 200, success := true, error := none,
          query := some (pyStrip (q.getD "")),
          results := (search_doctors doctors (pyStrip (q.getD ""))).map
            (format_doctor_for_mobile h),
          count := ((search_doctors doctors (pyStrip (q.getD ""))).map
            (format_doctor_for_mobile h)).length,
          timestamp := ts }) := by
  constructor
  · intro hq
    constructor
    · simp [api_search_route, hq]
    · intro doctors2
      simp [api_search_route, hq]
  · intro hq
    simp [api_search_route, hq]

/-- Witness for C8: a missing `q` gives the 400 envelope, `q = "cardio"`
gives the 200 envelope. -/
theorem api_search_route_validation_witness :
    pyStrip ((none : Option String).getD "") = "" ∧
    api_search_route (fun _ => 0) "t" none
        [⟨"Dr. B", "Cardiology", "X", "Mon", "9-5", "111"⟩] =
      { status := 400, success := false, error := some "Search keyword q is required",
        query := none, results := [], count := 0, timestamp := "t" } ∧
    pyStrip ((some "cardio").getD "") ≠ "" ∧
    api_search_route (fun _ => 0) "t" (some "cardio")
        [⟨"Dr. B", "Cardiology", "X", "Mon", "9-5", "111"⟩] =
      { status := 200, success := true, error := none,
        query := some (pyStrip ((some "cardio").getD "")),
        results := (search_doctors [⟨"Dr. B", "Cardiology", "X", "Mon", "9-5", "111"⟩]
          (pyStrip ((some "cardio").getD ""))).map (format_doctor_for_mobile (fun _ => 0)),
        count := ((search_doctors [⟨"Dr. B", "Cardiology", "X", "Mon", "9-5", "111"⟩]
          (pyStrip ((some "cardio").getD ""))).map (format_doctor_for_mobile (fun _ => 0))).length,
        timestamp := "t" } :=
  ⟨by decide, ((api_search_route_validation _ _ _ _).1 (by decide)).1, by decide,
    (api_search_route_validation _ _ _ _).2 (by decide)⟩

/-- C9: the derived id is a function of the bare `name ++ specialization`
concatenation, so two records with distinct (name, specialization) pairs
but equal concatenations receive the same id although their formatted
views differ, and the `/api/doctor/{id}` route then returns only the
first of the two in source order. -/
theorem doctor_id_collision_first_wins (h : String → Int) (r1 r2 : DoctorRecord)
    (hcat : r1.doctorName ++ r1.specialization = r2.doctorName ++ r2.specialization)
    (hne : r1.doctorName ≠ r2.doctorName ∨ r1.specialization ≠ r2.specialization) :
    (format_doctor_for_mobile h r1).id = (format_doctor_for_mobile h r2).id ∧
    format_doctor_for_mobile h r1 ≠ format_doctor_for_mobile h r2 ∧
    api_get_doctor_route h [r1, r2] ((format_doctor_for_mobile h r2).id) =
      { status := 200, success := true,
        doctor := some (format_doctor_for_mobile h r1), error := none } := by
  have hid : (format_doctor_for_mobile h r1).id = (format_doctor_for_mobile h r2).id :=
    congrArg h hcat
  refine ⟨hid, ?_, ?_⟩
  · intro heq
    rcases hne with hn | hs
    · exact hn (congrArg DoctorView.name heq)
    · exact hs (congrArg DoctorView.specialization heq)
  · have hfind : List.find? (fun d => d.id == (format_doctor_for_mobile h r2).id)
        [format_doctor_for_mobile h r1, format_doctor_for_mobile h r2] =
        some (format_doctor_for_mobile h r1) :=
      List.find?_cons_of_pos _ (by simp [hid])
    simp [api_get_doctor_route, hfind]

/-- Witness for C9: `"Dr. AB" ++ "C"` and `"Dr. A" ++ "BC"` collide. -/
theorem doctor_id_collision_first_wins_witness :
    (("Dr. AB" : String) ++ "C" = ("Dr. A" : String) ++ "BC") ∧
    (("Dr. AB" : String) ≠ "Dr. A") ∧
    api_get_doctor_route (fun s => (s.data.length : Int))
        [⟨"Dr. AB", "C", "Y", "Mon", "9-5", "111"⟩, ⟨"Dr. A", "BC", "Z", "Tue", "9-5", "222"⟩]
        ((format_doctor_for_mobile (fun s => (s.data.length : Int))
          ⟨"Dr. A", "BC", "Z", "Tue", "9-5", "222"⟩).id) =
      { status := 200, success := true,
        doctor := some (format_doctor_for_mobile (fun s => (s.data.length : Int))
          ⟨"Dr. AB", "C", "Y", "Mon", "9-5", "111"⟩),
        error := none } :=
  ⟨by decide, by decide,
    (doctor_id_collision_first_wins (fun s => (s.data.length : Int))
      ⟨"Dr. AB", "C", "Y", "Mon", "9-5", "111"⟩ ⟨"Dr. A", "BC", "Z", "Tue", "9-5", "222"⟩
      (by decide) (Or.inl (by decide))).2.2⟩
